import Mathlib

set_option maxRecDepth 10000

/-!
Verification of the output-assembly and formatting stage of the msgp code
generator: package `printer`, file `print.go`.

Modelling conventions:

* Byte buffers (`bytes.Buffer`) and file contents are modelled as `List Char`
  (`Chars`); `bytes.Buffer` writes become list appends.
* Storage is a map from paths to `(contents, unix permission bits)`; a write
  via `ioutil.WriteFile(path, data, 0600)` inserts `(data, 0o600)`.
  Storage-level write failures (disk/permission errors) are outside the
  modelled state.
* External collaborators are modelled at their interface boundary, as the
  spec prescribes:
  - the body generator `f.PrintTo(gen.NewPrinter(mode, &topics, funcbuf,
    testwr))` is modelled by a `PrintResult` record carrying what the call
    wrote to the topics sink, the body sink and the test sink, plus its
    `Option Err` outcome;
  - `imports.Process` and `gci.WriteFormattedFiles` are fields of an `Env`
    record; `gci` rewrites the contents of each file it is given on success
    and leaves storage untouched when it fails;
  - `gen.Method` is a bit-flag set that this subsystem only ever inspects
    through `mode&gen.Test == gen.Test`; it is modelled by the value of that
    test.
* The main-file formatting goroutine spawned by `goformat` always runs to
  completion and targets a path distinct from the test-file path, so its
  storage and log effects are modelled as happening before the test file is
  handled; only effects the claims quantify over (final storage, returned
  error, which log lines exist) are interleaving-independent and relied on.
* The `chalk.Magenta` colouring of log lines is not modelled; a log line is
  the uncoloured text handed to the logger.
-/

namespace printer

abbrev Chars := List Char

/-- Go `error` values are opaque here; we represent them by their message. -/
abbrev Err := String

/-- `.data` of a string literal, used to write `Chars` constants readably. -/
def str (s : String) : Chars := s.data

/-- The double-quote character (written via its code point to keep every
quote in this file inside a string literal). -/
def quoteChar : Char := Char.ofNat 34

/-- One character of the rendering of a Go string through the `%q` format
verb (Go quoting): the escapes that `%q` applies to the characters relevant
here.  (`%q` also escapes other non-printable characters; the declared
paths and the inputs used in this development contain none.) -/
def goQuoteChar (c : Char) : Chars :=
  if c = quoteChar then ['\\', quoteChar]
  else if c = '\\' then ['\\', '\\']
  else if c = '\n' then ['\\', 'n']
  else if c = '\t' then ['\\', 't']
  else if c = '\r' then ['\\', 'r']
  else [c]

/-- Go `fmt.Sprintf("%q", s)`: double-quote and escape. -/
def goQuote (s : Chars) : Chars := quoteChar :: s.flatMap goQuoteChar ++ [quoteChar]

/-- A line as written into a buffer: its content followed by `'\n'`. -/
def line (s : Chars) : Chars := s ++ ['\n']

/-- `strings.Join(tags, " ")`. -/
def joinSpace (tags : List Chars) : Chars := (List.intersperse (str (" ")) tags).flatten

/-- An import declaration of the parsed file (`parse.FileSet.Imports`
entry): an optional alias (`imp.Name`) and the path *literal* as it occurs
in the source, quotes included (`imp.Path.Value`, e.g. `"fmt"` with the
quote characters). -/
structure ImportSpec where
  name : Option Chars
  path : Chars

/-- The parsed file description (`parse.FileSet`), restricted to the fields
`print.go` reads: the package name and the import declarations. -/
structure FileSet where
  Package : Chars
  Imports : List ImportSpec

/-- The generation mode `gen.Method`.  `print.go` only inspects it through
the bit test `mode&gen.Test == gen.Test`; the external `gen` package is
otherwise out of scope, so the mode is modelled by that test's value. -/
structure Method where
  test : Bool

/-- Outcome of the external body generator call
`f.PrintTo(gen.NewPrinter(mode, &topics, funcbuf, testwr))`: everything the
call wrote to the topics sink, to the body sink (`funcbuf`) and to the
test-file sink (`testwr`, dropped when no test buffer exists), and its
returned error (`none` = success). -/
structure PrintResult where
  topics : Chars
  body : Chars
  testBody : Chars
  err : Option Err

/-- The string is free of newline characters. -/
def noNL (s : Chars) : Prop := ∀ c ∈ s, c ≠ '\n'

instance (s : Chars) : Decidable (noNL s) := List.decidableBAll _ s

/-- `dedupImports` (print.go:89-99): dump the rendered imports into a Go
map and read the keys back.  The set of keys is the set of distinct
entries; Go's map iteration order is unspecified, so the model fixes one
canonical duplicate-free enumeration of that set (`List.dedup`). -/
def dedupImports (imp : List Chars) : List Chars := imp.dedup

/-- The generated-code marker comment (print.go:149), without its trailing
newline. -/
def markerLine : Chars := str ("// Code generated by github.com/algorand/msgp DO NOT EDIT.")

/-- `writePkgHeader` (print.go:142-150): `package <name>`, the marker
comment on the next line, then a blank line. -/
def writePkgHeader (name : Chars) : Chars :=
  line (str ("package ") ++ name) ++ line markerLine ++ line []

/-- The loop body of `writeImportHeader` (print.go:154-161) for one import
string: Go evaluates `im[len(im)-1]`, which panics (index out of range)
when `im` is empty — modelled as `none`.  Otherwise an import already
ending in a quote is written through verbatim (alias support) and any
other import is `%q`-quoted, indented by a tab. -/
def renderImportLine (im : Chars) : Option Chars :=
  match im.getLast? with
  | none => none
  | some c => some (str ("\t") ++ (if c = quoteChar then im else goQuote im))

/-- The loop of `writeImportHeader` over all imports; `none` as soon as
one import string is empty (the Go loop panics there). -/
def importLines : List Chars → Option (List Chars)
  | [] => some []
  | im :: imps => do
    let l ← renderImportLine im
    let ls ← importLines imps
    pure (l :: ls)

/-- The full text `writeImportHeader` (print.go:152-163) appends:
`import (`, one line per import, `)`, blank line. -/
def importBlock (ls : List Chars) : Chars :=
  line (str ("import (")) ++ (ls.map line).flatten ++ line (str (")")) ++ line []

/-- `writeImportHeader` as a function from the import strings to the
appended text; `none` models the index-out-of-range panic on an
empty import string. -/
def writeImportHeader (imports : List Chars) : Option Chars :=
  (importLines imports).map importBlock

/-- `writeBuildHeader` (print.go:165-168): `//go:build` line and legacy
`// +build` line, both listing the same joined tags, then a blank line. -/
def writeBuildHeader (buildHeaders : List Chars) : Chars :=
  line (str ("//go:build ") ++ joinSpace buildHeaders) ++
  line (str ("// +build ") ++ joinSpace buildHeaders) ++ line []

/-- The fixed required runtime-support import (print.go:105). -/
def msgpImport : Chars := str ("github.com/algorand/msgp/msgp")

/-- How `generate` (print.go:106-113) renders one declared import:
`<alias> <pathLiteral>` when an alias is present, else the path literal. -/
def renderImport (imp : ImportSpec) : Chars :=
  match imp.name with
  | some n => n ++ str (" ") ++ imp.path
  | none => imp.path

/-- The import list `generate` assembles before deduplication: the fixed
runtime-support import followed by every declared import, alias-aware. -/
def mainImports (f : FileSet) : List Chars := msgpImport :: f.Imports.map renderImport

/-- The fixed import list of the test file (print.go:123-128). -/
def testImports : List Chars :=
  [str ("github.com/algorand/msgp/msgp"),
   str ("github.com/algorand/go-algorand/protocol"),
   str ("github.com/algorand/go-algorand/test/partitiontest"),
   str ("testing")]

/-- `generate` (print.go:101-140).  Returns `none` when `writeImportHeader`
panics on an empty import string; otherwise `some (out, testbuf?, err?)`
with the main buffer, the optional test buffer and the body generator's
error.  On a body-generator error the topics and body output are *not*
appended to the main buffer; the test buffer always holds whatever the
generator wrote to the test sink before returning. -/
def generate (f : FileSet) (mode : Method) (pr : PrintResult) :
    Option (Chars × Option Chars × Option Err) :=
  match writeImportHeader (dedupImports (mainImports f)) with
  | none => none
  | some hdr =>
    let out0 := writePkgHeader f.Package ++ hdr
    let tb : Option (Option Chars) :=
      if mode.test then
        match writeImportHeader testImports with
        | none => none
        | some thdr =>
          some (some (writeBuildHeader [str ("!skip_msgp_testing")] ++
            writePkgHeader f.Package ++ thdr ++ pr.testBody))
      else some none
    match tb with
    | none => none
    | some testbuf =>
      match pr.err with
      | some e => some (out0, testbuf, some e)
      | none => some (out0 ++ pr.topics ++ pr.body, testbuf, none)

/-- Storage: path ↦ (contents, unix permission bits). -/
abbrev FS := Chars → Option (Chars × Nat)

/-- `ioutil.WriteFile(path, data, 0600)`. -/
def fsWrite (fs : FS) (path data : Chars) : FS :=
  fun p => if p = path then some (data, 0o600) else fs p

/-- A `gci` section descriptor (`gci.SectionList` entry). -/
inductive GciSection where
  | standardPackage
  | defaultSection
  | prefixSection (p : Chars)
  | newLine

/-- The `gci.GciConfiguration` record as `format` fills it in. -/
structure GciConfiguration where
  sections : List GciSection
  sectionSeparators : List GciSection

/-- The fixed import-grouping policy `format` passes to gci
(print.go:66-73): standard library, default, `github.com/algorand`,
`github.com/algorand/go-algorand`, separated by blank lines. -/
def gciConfig : GciConfiguration :=
  { sections :=
      [GciSection.standardPackage, GciSection.defaultSection,
       GciSection.prefixSection (str ("github.com/algorand")),
       GciSection.prefixSection (str ("github.com/algorand/go-algorand"))],
    sectionSeparators := [GciSection.newLine] }

/-- On success gci rewrites each named file in place (contents-only; the
permission bits of the entry are kept). -/
def gciApplyFiles (t : Chars → Chars) (paths : List Chars) (fs : FS) : FS :=
  fun p => if p ∈ paths then (fs p).map (fun e => (t e.1, e.2)) else fs p

/-- The external formatting tools, at their interface boundary:
`imports.Process(path, data, nil)` returns the normalized bytes or an
error; `gci.WriteFormattedFiles(paths, config)` either fails without
touching storage or succeeds, rewriting each named file by some
content transformation. -/
structure Env where
  importsProcess : Chars → Chars → Except Err Chars
  gciWrite : List Chars → GciConfiguration → Except Err (Chars → Chars)

/-- `format` (print.go:53-78).  With `skipFormat` the bytes go to storage
verbatim with mode 0600.  Otherwise: run `imports.Process`, write its
output, then run gci with the fixed section policy; either stage's failure
is returned, and a gci failure leaves the normalized write in place. -/
def format (env : Env) (fs : FS) (file data : Chars) (skipFormat : Bool) :
    FS × Option Err :=
  if skipFormat then (fsWrite fs file data, none)
  else
    match env.importsProcess file data with
    | Except.error e => (fs, some e)
    | Except.ok out =>
      let fs1 := fsWrite fs file out
      match env.gciWrite [file] gciConfig with
      | Except.error e => (fs1, some e)
      | Except.ok t => (gciApplyFiles t [file] fs1, none)

/-- The text of the log line `infof(">>> Wrote and formatted \"%s\"\n", f)`
emits for a file (colour codes aside). -/
def logLine (path : Chars) : Chars :=
  str (">>> Wrote and formatted \"") ++ path ++ str ("\"\n")

/-- Go `strings.TrimSuffix`. -/
def trimSuffix (s suffix : Chars) : Chars :=
  if suffix <:+ s then s.take (s.length - suffix.length) else s

/-- The test-file path `PrintFile` derives (print.go:39):
`strings.TrimSuffix(file, ".go") + "_test.go"`. -/
def testPath (file : Chars) : Chars := trimSuffix file (str (".go")) ++ str ("_test.go")

/-- `PrintFile` (print.go:25-51) together with `goformat` (print.go:80-87).
Result: `none` when `writeImportHeader` panicked inside `generate`,
otherwise `some (storage, returned error, emitted log lines)`.

The main buffer is formatted by a background goroutine whose one-slot
buffered channel is read only after the test file is handled; the goroutine
always runs to completion, always sends exactly one result, and then logs
its line unconditionally — even when `format` failed, and even when
`PrintFile` already returned early on a test-file error.  Because the
goroutine's target path is distinct from the test-file path, its storage
and log effects are modelled as happening first. -/
def PrintFile (env : Env) (fs : FS) (file : Chars) (f : FileSet) (mode : Method)
    (pr : PrintResult) (skipFormat : Bool) : Option (FS × Option Err × List Chars) :=
  match generate f mode pr with
  | none => none
  | some (out, tests, err?) =>
    match err? with
    | some e => some (fs, some e, [])
    | none =>
      let r1 := format env fs file out skipFormat
      match tests with
      | some tbuf =>
        let r2 := format env r1.1 (testPath file) tbuf skipFormat
        match r2.2 with
        | some e => some (r2.1, some e, [logLine file])
        | none => some (r2.1, r1.2, [logLine file, logLine (testPath file)])
      | none => some (r1.1, r1.2, [logLine file])

/-- The concrete text of the test file's import header: the
runtime-support import plus the fixed testing-support imports, in source
order, none deduplicated against the main file's list. -/
def testImportHeaderChars : Chars :=
  importBlock
    [str ("\t\"github.com/algorand/msgp/msgp\""),
     str ("\t\"github.com/algorand/go-algorand/protocol\""),
     str ("\t\"github.com/algorand/go-algorand/test/partitiontest\""),
     str ("\t\"testing\"")]

/-- The single build tag of the test file's build-constraint header. -/
def skipTag : Chars := str ("!skip_msgp_testing")

/-- The path transformation that claim C9 describes, stated from the
claim's own words for comparison with the code's `testPath`: remove the
target path's extension and append `_test.` followed by the same
extension.  (When the path has no extension the claim does not say what
happens; that case is not used.) -/
def specTestPath (file : Chars) : Chars :=
  let extR := file.reverse.takeWhile (fun c => c ≠ '.')
  match file.reverse.dropWhile (fun c => c ≠ '.') with
  | [] => file ++ str ("_test")
  | _ :: stemR => stemR.reverse ++ str ("_test.") ++ extR.reverse

/-! ### Concrete fixtures used by witnesses and counterexamples -/

/-- A small file description: package `sample`, one plain import `"fmt"`. -/
def sampleFS : FileSet :=
  { Package := str ("sample"), Imports := [{ name := none, path := str ("\"fmt\"") }] }

/-- A file description with no declared imports. -/
def emptyFS : FileSet := { Package := str ("sample"), Imports := [] }

/-- A successful body-generator outcome with small topic/body text. -/
def samplePR : PrintResult :=
  { topics := str ("// T\n"), body := str ("func Foo()\n"),
    testBody := str ("// TB\n"), err := none }

/-- A successful body-generator outcome that wrote nothing. -/
def emptyPR : PrintResult := { topics := [], body := [], testBody := [], err := none }

/-- A failed body-generator outcome. -/
def errPR : PrintResult :=
  { topics := [], body := [], testBody := [], err := some ("generr") }

/-- Empty storage. -/
def fs0 : FS := fun _ => none

/-- The main buffer `generate` produces for `emptyFS` and `emptyPR`. -/
def outW : Chars :=
  writePkgHeader (str ("sample")) ++
    importBlock [str ("\t\"github.com/algorand/msgp/msgp\"")]

/-- The test buffer `generate` produces for `emptyFS` and `emptyPR`. -/
def tbufW : Chars :=
  writeBuildHeader [skipTag] ++ writePkgHeader (str ("sample")) ++ testImportHeaderChars

/-- Formatting environment whose tools always succeed and change nothing. -/
def envId : Env :=
  { importsProcess := fun _ d => Except.ok d, gciWrite := fun _ _ => Except.ok (fun c => c) }

/-- Formatting environment whose normalizer always fails. -/
def envFail : Env :=
  { importsProcess := fun _ _ => Except.error ("boom"),
    gciWrite := fun _ _ => Except.ok (fun c => c) }

/-- Formatting environment whose normalizer fails exactly on the test-file
path derived from `out.go`, and succeeds (as the identity) elsewhere. -/
def envTestFail : Env :=
  { importsProcess := fun p d =>
      if p = testPath (str ("out.go")) then Except.error ("terr") else Except.ok d,
    gciWrite := fun _ _ => Except.ok (fun c => c) }

/-- Formatting environment whose grouping stage (gci) always fails. -/
def envGciFail : Env :=
  { importsProcess := fun _ d => Except.ok d,
    gciWrite := fun _ _ => Except.error ("gcierr") }

/-! ### Line-level view of buffers

The header claims speak about lines of the output (the marker comment line,
the build-constraint line).  `splitLines` splits a buffer at `'\n'`, with
the usual convention that a trailing newline contributes a final empty
segment; every chunk the subsystem writes is a sequence of `line`s, so the
line list of a buffer decomposes chunk by chunk. -/

def splitLines : Chars → List Chars
  | [] => [[]]
  | c :: cs =>
    let r := splitLines cs
    if c = '\n' then [] :: r else (c :: r.headD []) :: r.tail

lemma splitLines_nil : splitLines [] = [[]] := rfl

lemma splitLines_ne_nil (s : Chars) : splitLines s ≠ [] := by
  cases s with
  | nil => simp [splitLines]
  | cons c cs =>
    simp only [splitLines]
    split <;> simp

lemma splitLines_line_aux (s B : Chars) (h : noNL s) :
    splitLines (s ++ '\n' :: B) = s :: splitLines B := by
  induction s with
  | nil => simp [splitLines]
  | cons c cs ih =>
    have hc : c ≠ '\n' := h c (by simp)
    have ih' := ih (fun x hx => h x (by simp [hx]))
    simp [splitLines, hc, ih']

lemma splitLines_line (s B : Chars) (h : noNL s) :
    splitLines (line s ++ B) = s :: splitLines B := by
  have he : line s ++ B = s ++ '\n' :: B := by simp [line]
  rw [he, splitLines_line_aux s B h]

lemma splitLines_lines (ls : List Chars) (B : Chars) (h : ∀ l ∈ ls, noNL l) :
    splitLines ((ls.map line).flatten ++ B) = ls ++ splitLines B := by
  induction ls with
  | nil => simp
  | cons l ls ih =>
    have h1 : noNL l := h l (by simp)
    have ih' := ih (fun x hx => h x (by simp [hx]))
    rw [List.map_cons, List.flatten_cons, List.append_assoc, splitLines_line l _ h1, ih',
      List.cons_append]

lemma noNL_append {a b : Chars} (ha : noNL a) (hb : noNL b) : noNL (a ++ b) := by
  intro c hc
  rcases List.mem_append.1 hc with h | h
  · exact ha c h
  · exact hb c h

lemma noNL_goQuoteChar (a : Char) : ∀ c ∈ goQuoteChar a, c ≠ '\n' := by
  intro c hc
  unfold goQuoteChar at hc
  split_ifs at hc with h1 h2 h3 h4 h5 <;> simp at hc
  · rcases hc with rfl | rfl <;> decide
  · rcases hc with rfl | rfl <;> decide
  · rcases hc with rfl | rfl <;> decide
  · rcases hc with rfl | rfl <;> decide
  · rcases hc with rfl | rfl <;> decide
  · subst hc; exact h3

lemma noNL_goQuote (s : Chars) : noNL (goQuote s) := by
  intro c hc
  rcases List.mem_cons.1 hc with rfl | hc'
  · decide
  · rcases List.mem_append.1 hc' with h | h
    · obtain ⟨a, _, hca⟩ := List.mem_flatMap.1 h
      exact noNL_goQuoteChar a c hca
    · simp at h
      subst h
      decide

lemma ne_of_head {a b : Chars} {c d : Char} (ha : a.head? = some c) (hb : b.head? = some d)
    (hcd : c ≠ d) : a ≠ b := by
  intro h
  rw [h, hb] at ha
  exact hcd (Option.some.inj ha).symm

lemma renderImportLine_isSome {im : Chars} (h : im ≠ []) : (renderImportLine im).isSome := by
  unfold renderImportLine
  cases him : im.getLast? with
  | none =>
    exfalso
    have hs : im.getLast?.isSome := by
      rw [List.getLast?_isSome]
      exact h
    rw [him] at hs
    simp at hs
  | some c => simp

lemma importLines_isSome (imps : List Chars) :
    (importLines imps).isSome ↔ ∀ im ∈ imps, im ≠ [] := by
  induction imps with
  | nil => simp [importLines]
  | cons im imps ih =>
    constructor
    · intro h x hx
      rcases List.mem_cons.1 hx with rfl | hx
      · intro hnil
        subst hnil
        rw [show importLines ([] :: imps) = none from rfl] at h
        simp at h
      · have hsome : (importLines imps).isSome := by
          by_contra hno
          rw [Option.not_isSome_iff_eq_none] at hno
          unfold importLines at h
          cases hr : renderImportLine im <;> simp [hr, hno] at h
        exact (ih.1 hsome) x hx
    · intro hall
      obtain ⟨l, hl⟩ := Option.isSome_iff_exists.1
        (renderImportLine_isSome (hall im (by simp)))
      obtain ⟨ls, hls⟩ := Option.isSome_iff_exists.1
        (ih.2 (fun x hx => hall x (by simp [hx])))
      simp [importLines, hl, hls]

/-- Successful rendering of a nonempty, newline-free import list: every
rendered line starts with the tab and is newline-free. -/
lemma importLines_spec (imps : List Chars)
    (h : ∀ im ∈ imps, im ≠ [] ∧ noNL im) :
    ∃ ls, importLines imps = some ls ∧ ∀ l ∈ ls, l.head? = some '\t' ∧ noNL l := by
  induction imps with
  | nil => exact ⟨[], rfl, by simp⟩
  | cons im imps ih =>
    obtain ⟨hne, hnl⟩ := h im (by simp)
    obtain ⟨ls, hls, hall⟩ := ih (fun x hx => h x (by simp [hx]))
    obtain ⟨c, hc⟩ := Option.isSome_iff_exists.1 (by rw [List.getLast?_isSome]; exact hne)
    refine ⟨(str ("\t") ++ if c = quoteChar then im else goQuote im) :: ls, ?_, ?_⟩
    · simp [importLines, renderImportLine, hc, hls]
    · intro l hl
      rcases List.mem_cons.1 hl with rfl | hl
      · refine ⟨rfl, ?_⟩
        split
        · exact noNL_append (by decide) hnl
        · exact noNL_append (by decide) (noNL_goQuote im)
      · exact hall l hl

/-- Line-level decomposition of the implementation buffer: package clause,
marker line, blank line, the import block, then whatever the external
generator wrote. -/
lemma splitLines_implOut (name : Chars) (ls : List Chars) (tail : Chars)
    (hname : noNL name) (hls : ∀ l ∈ ls, noNL l) :
    splitLines (writePkgHeader name ++ importBlock ls ++ tail) =
      (str ("package ") ++ name) :: markerLine :: [] ::
        str ("import (") :: (ls ++ str (")") :: [] :: splitLines tail) := by
  unfold writePkgHeader importBlock
  simp only [List.append_assoc]
  rw [splitLines_line _ _ (noNL_append (by decide) hname)]
  rw [splitLines_line _ _ (by decide)]
  rw [splitLines_line _ _ (by decide)]
  rw [splitLines_line _ _ (by decide)]
  rw [splitLines_lines _ _ hls]
  rw [splitLines_line _ _ (by decide)]
  rw [splitLines_line _ _ (by decide)]

lemma writeImportHeader_testImports :
    writeImportHeader testImports = some testImportHeaderChars := by decide

/-- Every entry of the deduplicated main import list is nonempty and
newline-free, provided the declared imports render that way (the fixed
runtime-support import always is). -/
lemma mainImports_ok (f : FileSet)
    (himps : ∀ imp ∈ f.Imports, renderImport imp ≠ [] ∧ noNL (renderImport imp)) :
    ∀ im ∈ dedupImports (mainImports f), im ≠ [] ∧ noNL im := by
  intro im h
  have him := List.mem_dedup.1 h
  rcases List.mem_cons.1 him with rfl | him
  · exact ⟨by decide, by decide⟩
  · obtain ⟨imp, himp, rfl⟩ := List.mem_map.1 him
    exact himps imp himp

/-- Characterization of a successful `generate` run: the main buffer is
package header, import block, topics, body, in that order; the test buffer
is present exactly when the test flag is set, and then consists of build
header, package header, the fixed test import header, and the generator's
test output. -/
lemma generate_ok (f : FileSet) (mode : Method) (pr : PrintResult) (ls : List Chars)
    (hls : importLines (dedupImports (mainImports f)) = some ls)
    (herr : pr.err = none) :
    generate f mode pr =
      some (writePkgHeader f.Package ++ importBlock ls ++ pr.topics ++ pr.body,
        (if mode.test then
          some (writeBuildHeader [skipTag] ++ writePkgHeader f.Package ++
            testImportHeaderChars ++ pr.testBody)
         else none), none) := by
  have hwih : writeImportHeader (dedupImports (mainImports f)) = some (importBlock ls) := by
    rw [writeImportHeader, hls]
    rfl
  simp only [generate, hwih, writeImportHeader_testImports, herr]
  cases hm : mode.test <;> simp [hm, skipTag]

/-- Characterization of a `generate` run in which the body generator
failed: same buffers, but topics and body are *not* appended to the main
buffer and the error is passed through. -/
lemma generate_err (f : FileSet) (mode : Method) (pr : PrintResult) (ls : List Chars)
    (e : Err) (hls : importLines (dedupImports (mainImports f)) = some ls)
    (herr : pr.err = some e) :
    generate f mode pr =
      some (writePkgHeader f.Package ++ importBlock ls,
        (if mode.test then
          some (writeBuildHeader [skipTag] ++ writePkgHeader f.Package ++
            testImportHeaderChars ++ pr.testBody)
         else none), some e) := by
  have hwih : writeImportHeader (dedupImports (mainImports f)) = some (importBlock ls) := by
    rw [writeImportHeader, hls]
    rfl
  simp only [generate, hwih, writeImportHeader_testImports, herr]
  cases hm : mode.test <;> simp [hm, skipTag]

lemma trimSuffix_append (a suf : Chars) : trimSuffix (a ++ suf) suf = a := by
  unfold trimSuffix
  rw [if_pos (List.suffix_append a suf)]
  rw [List.length_append, Nat.add_sub_cancel, List.take_left]

/-! ### Claim theorems -/

/-- Claim C1: for every file description and generation mode, when the body
generator succeeds, the implementation buffer consists, in order, of: the
package clause `package <name>`; the fixed generated-code marker comment
verbatim on the immediately following line, occurring exactly once among
the buffer's lines; a blank line; the import block built from the fixed
runtime-support import plus every declared import (alias-aware,
deduplicated — same element set as the assembled list); then all topic
output; then all body output.  Hypotheses: the package name and the
rendered declared imports are nonempty and newline-free, and the external
generator's topic/body output does not itself contain the marker as a
line. -/
theorem c1_impl_buffer_layout
    (f : FileSet) (mode : Method) (pr : PrintResult)
    (hname : noNL f.Package)
    (himps : ∀ imp ∈ f.Imports, renderImport imp ≠ [] ∧ noNL (renderImport imp))
    (herr : pr.err = none)
    (htail : markerLine ∉ splitLines (pr.topics ++ pr.body)) :
    ∃ ls tb,
      importLines (dedupImports (mainImports f)) = some ls ∧
      generate f mode pr =
        some (writePkgHeader f.Package ++ importBlock ls ++ pr.topics ++ pr.body, tb, none) ∧
      writePkgHeader f.Package =
        line (str ("package ") ++ f.Package) ++ line markerLine ++ line [] ∧
      (dedupImports (mainImports f)).toFinset = (mainImports f).toFinset ∧
      splitLines (writePkgHeader f.Package ++ importBlock ls ++ pr.topics ++ pr.body) =
        (str ("package ") ++ f.Package) :: markerLine :: [] ::
          str ("import (") :: (ls ++ str (")") :: [] :: splitLines (pr.topics ++ pr.body)) ∧
      List.count markerLine
        (splitLines (writePkgHeader f.Package ++ importBlock ls ++ pr.topics ++ pr.body)) = 1 := by
  obtain ⟨ls, hls, hlines⟩ := importLines_spec _ (mainImports_ok f himps)
  have hlsNL : ∀ l ∈ ls, noNL l := fun l hl => (hlines l hl).2
  have hsplit := splitLines_implOut f.Package ls (pr.topics ++ pr.body) hname hlsNL
  rw [← List.append_assoc] at hsplit
  have h1 : markerLine ≠ str ("package ") ++ f.Package := ne_of_head rfl rfl (by decide)
  have h2 : markerLine ≠ ([] : Chars) := by decide
  have h3 : markerLine ≠ str ("import (") := by decide
  have h4 : markerLine ≠ str (")") := by decide
  have h5 : markerLine ∉ ls := by
    intro hmem
    have hh := (hlines markerLine hmem).1
    rw [show markerLine.head? = some '/' from rfl] at hh
    exact absurd hh (by decide)
  refine ⟨ls, _, hls, generate_ok f mode pr ls hls herr, rfl, ?_, hsplit, ?_⟩
  · ext a
    simp [dedupImports, List.mem_toFinset, List.mem_dedup]
  · rw [hsplit, List.count_cons_of_ne h1, List.count_cons_self, List.count_cons_of_ne h2,
      List.count_cons_of_ne h3, List.count_append, List.count_cons_of_ne h4,
      List.count_cons_of_ne h2, List.count_eq_zero.2 h5, List.count_eq_zero.2 htail]

/-- Witness for C1 at a concrete input: package `sample`, one plain import
`"fmt"`, test mode on, and a small successful generator run. -/
theorem c1_witness :
    noNL sampleFS.Package ∧
    (∀ imp ∈ sampleFS.Imports, renderImport imp ≠ [] ∧ noNL (renderImport imp)) ∧
    samplePR.err = none ∧
    markerLine ∉ splitLines (samplePR.topics ++ samplePR.body) ∧
    (∃ ls tb,
      importLines (dedupImports (mainImports sampleFS)) = some ls ∧
      generate sampleFS { test := true } samplePR =
        some (writePkgHeader sampleFS.Package ++ importBlock ls ++
          samplePR.topics ++ samplePR.body, tb, none) ∧
      writePkgHeader sampleFS.Package =
        line (str ("package ") ++ sampleFS.Package) ++ line markerLine ++ line [] ∧
      (dedupImports (mainImports sampleFS)).toFinset = (mainImports sampleFS).toFinset ∧
      splitLines (writePkgHeader sampleFS.Package ++ importBlock ls ++
          samplePR.topics ++ samplePR.body) =
        (str ("package ") ++ sampleFS.Package) :: markerLine :: [] ::
          str ("import (") :: (ls ++ str (")") :: [] ::
            splitLines (samplePR.topics ++ samplePR.body)) ∧
      List.count markerLine
        (splitLines (writePkgHeader sampleFS.Package ++ importBlock ls ++
          samplePR.topics ++ samplePR.body)) = 1) :=
  ⟨by decide, by decide, rfl, by decide,
    c1_impl_buffer_layout sampleFS { test := true } samplePR
      (by decide) (by decide) rfl (by decide)⟩

/-- Claim C2: `generate` produces a test buffer if and only if the test
flag is set in the mode; when produced, the test buffer is exactly the
build-constraint header (a modern `//go:build` line and a legacy
`// +build` line, both listing the same single fixed tag
`!skip_msgp_testing`), the package header, the fixed test import header
(runtime-support import plus the fixed testing-support imports, a constant
that is not merged with or deduplicated against the main file's imports),
and the generator's test output; and the build-constraint line never
occurs as a line of the implementation buffer (provided the generator's
topic/body output does not contain it as a line, and name/imports are
newline-free). -/
theorem c2_test_buffer_layout
    (f : FileSet) (mode : Method) (pr : PrintResult)
    (hname : noNL f.Package)
    (himps : ∀ imp ∈ f.Imports, renderImport imp ≠ [] ∧ noNL (renderImport imp))
    (herr : pr.err = none)
    (htail : str ("//go:build !skip_msgp_testing") ∉ splitLines (pr.topics ++ pr.body)) :
    ∃ ls out tb,
      importLines (dedupImports (mainImports f)) = some ls ∧
      generate f mode pr = some (out, tb, none) ∧
      out = writePkgHeader f.Package ++ importBlock ls ++ pr.topics ++ pr.body ∧
      (tb.isSome ↔ mode.test = true) ∧
      (mode.test = true →
        tb = some (writeBuildHeader [skipTag] ++ writePkgHeader f.Package ++
          testImportHeaderChars ++ pr.testBody)) ∧
      writeBuildHeader [skipTag] =
        line (str ("//go:build !skip_msgp_testing")) ++
        line (str ("// +build !skip_msgp_testing")) ++ line [] ∧
      str ("//go:build !skip_msgp_testing") ∉ splitLines out := by
  obtain ⟨ls, hls, hlines⟩ := importLines_spec _ (mainImports_ok f himps)
  have hlsNL : ∀ l ∈ ls, noNL l := fun l hl => (hlines l hl).2
  have hsplit := splitLines_implOut f.Package ls (pr.topics ++ pr.body) hname hlsNL
  rw [← List.append_assoc] at hsplit
  refine ⟨ls, _, _, hls, generate_ok f mode pr ls hls herr, rfl, ?_, ?_, by decide, ?_⟩
  · cases hm : mode.test <;> simp [hm]
  · intro hm
    simp [hm]
  · rw [hsplit]
    intro hmem
    simp only [List.mem_cons, List.mem_append] at hmem
    rcases hmem with h | h | h | h | h
    · exact (ne_of_head rfl rfl (by decide) : str ("//go:build !skip_msgp_testing") ≠
        str ("package ") ++ f.Package) h
    · exact absurd h (by decide)
    · exact absurd h (by decide)
    · exact absurd h (by decide)
    · rcases h with h | h
      · have hh := (hlines _ h).1
        rw [show (str ("//go:build !skip_msgp_testing")).head? = some '/' from rfl] at hh
        exact absurd hh (by decide)
      · rcases h with h | h | h
        · exact absurd h (by decide)
        · exact absurd h (by decide)
        · exact htail h

/-- Witness for C2 at a concrete input with the test flag set. -/
theorem c2_witness :
    noNL sampleFS.Package ∧
    samplePR.err = none ∧
    str ("//go:build !skip_msgp_testing") ∉ splitLines (samplePR.topics ++ samplePR.body) ∧
    (∃ ls out tb,
      importLines (dedupImports (mainImports sampleFS)) = some ls ∧
      generate sampleFS { test := true } samplePR = some (out, tb, none) ∧
      out = writePkgHeader sampleFS.Package ++ importBlock ls ++
        samplePR.topics ++ samplePR.body ∧
      (tb.isSome ↔ ({ test := true } : Method).test = true) ∧
      (({ test := true } : Method).test = true →
        tb = some (writeBuildHeader [skipTag] ++ writePkgHeader sampleFS.Package ++
          testImportHeaderChars ++ samplePR.testBody)) ∧
      writeBuildHeader [skipTag] =
        line (str ("//go:build !skip_msgp_testing")) ++
        line (str ("// +build !skip_msgp_testing")) ++ line [] ∧
      str ("//go:build !skip_msgp_testing") ∉ splitLines out) :=
  ⟨by decide, rfl, by decide,
    c2_test_buffer_layout sampleFS { test := true } samplePR
      (by decide) (by decide) rfl (by decide)⟩

/-- Claim C3: if the body generator fails, `PrintFile` returns that error
immediately: storage is unchanged (so a fresh target path still holds no
file, neither implementation nor test), no log line is emitted, and the
topics and body output are not appended to the main buffer (the main buffer
stops after the import block). -/
theorem c3_generator_error_aborts
    (env : Env) (fs : FS) (file : Chars) (f : FileSet) (mode : Method)
    (pr : PrintResult) (skipFormat : Bool) (e : Err) (ls : List Chars)
    (hls : importLines (dedupImports (mainImports f)) = some ls)
    (herr : pr.err = some e) :
    generate f mode pr =
      some (writePkgHeader f.Package ++ importBlock ls,
        (if mode.test then
          some (writeBuildHeader [skipTag] ++ writePkgHeader f.Package ++
            testImportHeaderChars ++ pr.testBody)
         else none), some e) ∧
    PrintFile env fs file f mode pr skipFormat = some (fs, some e, []) := by
  have hg := generate_err f mode pr ls e hls herr
  refine ⟨hg, ?_⟩
  simp [PrintFile, hg]

/-- Witness for C3 at a concrete input: a failing generator, empty storage
before and after, the generator's error returned, no log lines. -/
theorem c3_witness :
    importLines (dedupImports (mainImports emptyFS)) =
      some [str ("\t\"github.com/algorand/msgp/msgp\"")] ∧
    errPR.err = some ("generr") ∧
    generate emptyFS { test := false } errPR =
      some (writePkgHeader emptyFS.Package ++
        importBlock [str ("\t\"github.com/algorand/msgp/msgp\"")],
        (if ({ test := false } : Method).test then
          some (writeBuildHeader [skipTag] ++ writePkgHeader emptyFS.Package ++
            testImportHeaderChars ++ errPR.testBody)
         else none), some ("generr")) ∧
    PrintFile envId fs0 (str ("out.go")) emptyFS { test := false } errPR false =
      some (fs0, some ("generr"), []) := by
  have h := c3_generator_error_aborts envId fs0 (str ("out.go")) emptyFS { test := false }
    errPR false ("generr") [str ("\t\"github.com/algorand/msgp/msgp\"")] (by decide) rfl
  exact ⟨by decide, rfl, h.1, h.2⟩

/-- Claim C7: if formatting of the test file fails, `PrintFile` returns the
test file's formatting error immediately; the background main-file result
is never consulted (the conclusion holds whatever main-file formatting
returned, success or failure), and no test-file log line is emitted. -/
theorem c7_test_format_error_shortcircuits
    (env : Env) (fs : FS) (file : Chars) (f : FileSet) (mode : Method)
    (pr : PrintResult) (skipFormat : Bool) (out tbuf : Chars) (e : Err)
    (hgen : generate f mode pr = some (out, some tbuf, none))
    (htest : (format env (format env fs file out skipFormat).1
        (testPath file) tbuf skipFormat).2 = some e) :
    PrintFile env fs file f mode pr skipFormat =
      some ((format env (format env fs file out skipFormat).1
          (testPath file) tbuf skipFormat).1, some e, [logLine file]) := by
  simp [PrintFile, hgen, htest]

/-- Witness for C7 at a concrete input: an environment whose normalizer
fails exactly on the test path; `PrintFile` returns the test error even
though main-file formatting succeeded. -/
theorem c7_witness :
    PrintFile envTestFail fs0 (str ("out.go")) emptyFS { test := true } emptyPR false =
      some ((format envTestFail (format envTestFail fs0 (str ("out.go")) outW false).1
          (testPath (str ("out.go"))) tbufW false).1, some ("terr"),
        [logLine (str ("out.go"))]) :=
  c7_test_format_error_shortcircuits envTestFail fs0 (str ("out.go")) emptyFS
    { test := true } emptyPR false outW tbufW ("terr") (by decide) (by decide)

/-- Claim C8 (amended): the test-file log line is emitted exactly when the
test file was formatted and written successfully, after that write; the
implementation-file log line is emitted by the background task after its
formatting completes *regardless of success or failure* — `goformat` logs
unconditionally after sending its result. -/
theorem c8_amended_logging
    (env : Env) (fs : FS) (file : Chars) (f : FileSet) (mode : Method)
    (pr : PrintResult) (skipFormat : Bool) (out : Chars) (tests : Option Chars)
    (hgen : generate f mode pr = some (out, tests, none)) :
    (tests = none →
      PrintFile env fs file f mode pr skipFormat =
        some ((format env fs file out skipFormat).1,
          (format env fs file out skipFormat).2, [logLine file])) ∧
    (∀ tbuf, tests = some tbuf →
      (∀ e, (format env (format env fs file out skipFormat).1
          (testPath file) tbuf skipFormat).2 = some e →
        PrintFile env fs file f mode pr skipFormat =
          some ((format env (format env fs file out skipFormat).1
            (testPath file) tbuf skipFormat).1, some e, [logLine file])) ∧
      ((format env (format env fs file out skipFormat).1
          (testPath file) tbuf skipFormat).2 = none →
        PrintFile env fs file f mode pr skipFormat =
          some ((format env (format env fs file out skipFormat).1
            (testPath file) tbuf skipFormat).1,
            (format env fs file out skipFormat).2,
            [logLine file, logLine (testPath file)]))) := by
  refine ⟨?_, ?_⟩
  · intro hn
    simp [PrintFile, hgen, hn]
  · intro tbuf ht
    subst ht
    refine ⟨?_, ?_⟩
    · intro e he
      simp [PrintFile, hgen, he]
    · intro he
      simp [PrintFile, hgen, he]

/-- Witness for C8 (amended) at a concrete input: no test buffer, a failing
normalizer; the implementation-file log line is emitted anyway. -/
theorem c8_witness :
    generate emptyFS { test := false } emptyPR = some (outW, none, none) ∧
    PrintFile envFail fs0 (str ("out.go")) emptyFS { test := false } emptyPR false =
      some ((format envFail fs0 (str ("out.go")) outW false).1,
        (format envFail fs0 (str ("out.go")) outW false).2,
        [logLine (str ("out.go"))]) := by
  have h := c8_amended_logging envFail fs0 (str ("out.go")) emptyFS { test := false }
    emptyPR false outW none (by decide)
  exact ⟨by decide, h.1 rfl⟩

/-- Counterexample to C8 as stated: with a normalizer that always fails,
implementation-file formatting fails (the returned error is that failure),
yet the implementation-file log line is still emitted — the claim that no
log line is emitted for a file whose formatting failed is false. -/
theorem c8_counterexample :
    (PrintFile envFail fs0 (str ("out.go")) emptyFS { test := false } emptyPR false).map
      (fun r => (r.2.1, r.2.2)) =
      some (some ("boom"), [logLine (str ("out.go"))]) := by decide

/-- Claim C9 (amended): the test file is written at
`strings.TrimSuffix(path, ".go") + "_test.go"`.  For a path that ends in
`.go` this is `<stem>_test.go`, matching the claim; the appended extension
is always `.go` and a non-`.go` extension is not removed. -/
theorem c9_amended_test_path
    (env : Env) (fs : FS) (file : Chars) (f : FileSet) (mode : Method)
    (pr : PrintResult) (out tbuf : Chars)
    (hgen : generate f mode pr = some (out, some tbuf, none)) :
    PrintFile env fs file f mode pr true =
      some (fsWrite (fsWrite fs file out) (testPath file) tbuf, none,
        [logLine file, logLine (testPath file)]) ∧
    ∀ stem : Chars, testPath (stem ++ str (".go")) = stem ++ str ("_test.go") := by
  constructor
  · simp [PrintFile, hgen, format]
  · intro stem
    unfold testPath
    rw [trimSuffix_append]

/-- Witness for C9 (amended) at a concrete input. -/
theorem c9_witness :
    PrintFile envId fs0 (str ("out.go")) emptyFS { test := true } emptyPR true =
      some (fsWrite (fsWrite fs0 (str ("out.go")) outW) (testPath (str ("out.go"))) tbufW,
        none, [logLine (str ("out.go")), logLine (testPath (str ("out.go")))]) ∧
    ∀ stem : Chars, testPath (stem ++ str (".go")) = stem ++ str ("_test.go") :=
  c9_amended_test_path envId fs0 (str ("out.go")) emptyFS { test := true } emptyPR
    outW tbufW (by decide)

/-- Counterexample to C9 as stated: for target path `out.txt` the code
derives `out.txt_test.go` (`TrimSuffix` strips only a `.go` suffix and the
appended suffix is always `_test.go`), not the `out_test.txt` that removing
the extension and appending `_test.` plus the same extension would give. -/
theorem c9_counterexample :
    testPath (str ("out.txt")) = str ("out.txt_test.go") ∧
    specTestPath (str ("out.txt")) = str ("out_test.txt") ∧
    testPath (str ("out.txt")) ≠ specTestPath (str ("out.txt")) :=
  ⟨by decide, by decide, by decide⟩

/-- Claim C6: for every list of import strings (including the empty list
and lists with repeated entries), `dedupImports` returns a sequence whose
set of elements equals the set of distinct elements of the input, with each
distinct rendered import occurring exactly once; it is a pure (total)
function, the empty input yields empty output, and only the set — not the
order — is guaranteed (the model fixes one canonical order for Go's
unspecified map iteration order). -/
theorem c6_dedupImports_distinct_set (l : List Chars) :
    dedupImports ([] : List Chars) = [] ∧
    (dedupImports l).toFinset = l.toFinset ∧
    (dedupImports l).Nodup ∧
    ∀ a, a ∈ dedupImports l ↔ a ∈ l := by
  refine ⟨rfl, ?_, l.nodup_dedup, fun a => List.mem_dedup⟩
  ext a
  simp [dedupImports, List.mem_toFinset, List.mem_dedup]

/-- Claim C10: `writeImportHeader` inspects the last character of
each import string, so it succeeds (no index-out-of-range panic, modelled as
`none`) exactly when every import string is nonempty; and for a
nonempty import string the last character decides between alias
pass-through
(already quote-terminated) and `%q` rendering. -/
theorem c10_writeImportHeader_totality (imports : List Chars) :
    ((writeImportHeader imports).isSome ↔ ∀ im ∈ imports, im ≠ []) ∧
    (∀ im c, im.getLast? = some c →
      renderImportLine im = some (str ("\t") ++ if c = quoteChar then im else goQuote im)) := by
  constructor
  · unfold writeImportHeader
    cases h : importLines imports with
    | none =>
      rw [← importLines_isSome imports, h]
      simp
    | some ls =>
      rw [← importLines_isSome imports, h]
      simp
  · intro im c hc
    simp [renderImportLine, hc]

/-- Witness for C10 at a concrete input: a nonempty one-element import list
renders, and the plain (not quote-terminated) import is `%q`-quoted. -/
theorem c10_witness :
    (writeImportHeader [str ("a")]).isSome ∧
    renderImportLine (str ("a")) = some (str ("\t") ++ goQuote (str ("a"))) := by
  constructor
  · exact (c10_writeImportHeader_totality [str ("a")]).1.2 (by decide)
  · have h := (c10_writeImportHeader_totality [str ("a")]).2 (str ("a")) 'a' rfl
    simpa using h

/-- Claim C5: with `skipFormat = true`, `format` writes exactly the given
bytes to the path with mode 0600, returns no error, and performs no
normalization or grouping — the outcome does not depend on the external
tools at all, and the bytes on disk equal the buffer bytes exactly. -/
theorem c5_format_skip_verbatim (env : Env) (fs : FS) (file data : Chars) :
    format env fs file data true = (fsWrite fs file data, none) ∧
    (format env fs file data true).1 file = some (data, 0o600) ∧
    ∀ env₂ : Env, format env₂ fs file data true = format env fs file data true := by
  refine ⟨rfl, ?_, fun env₂ => rfl⟩
  simp [format, fsWrite]

/-- Claim C4: with `skipFormat = false`, `format` first runs the
external import normalizer on the bytes and writes its output to the path with mode
0600, then runs the external grouping tool on that one path with the fixed
four-section policy (standard library, default, `github.com/algorand`,
`github.com/algorand/go-algorand`, separated by blank lines); either
stage's failure is returned as the result, and when the grouping stage
fails the file on disk retains the normalizer's output. -/
theorem c4_format_pipeline (env : Env) (fs : FS) (file data : Chars) :
    gciConfig.sections =
      [GciSection.standardPackage, GciSection.defaultSection,
       GciSection.prefixSection (str ("github.com/algorand")),
       GciSection.prefixSection (str ("github.com/algorand/go-algorand"))] ∧
    gciConfig.sectionSeparators = [GciSection.newLine] ∧
    (∀ e, env.importsProcess file data = Except.error e →
      format env fs file data false = (fs, some e)) ∧
    (∀ out e, env.importsProcess file data = Except.ok out →
      env.gciWrite [file] gciConfig = Except.error e →
      format env fs file data false = (fsWrite fs file out, some e) ∧
      (format env fs file data false).1 file = some (out, 0o600)) ∧
    (∀ out t, env.importsProcess file data = Except.ok out →
      env.gciWrite [file] gciConfig = Except.ok t →
      format env fs file data false = (gciApplyFiles t [file] (fsWrite fs file out), none)) := by
  refine ⟨rfl, rfl, ?_, ?_, ?_⟩
  · intro e he
    simp [format, he]
  · intro out e ho he
    constructor
    · simp [format, ho, he]
    · simp [format, ho, he, fsWrite]
  · intro out t ho ht
    simp [format, ho, ht]

/-- Witness for C4 at concrete inputs: a failing normalizer aborts with its
error and leaves storage untouched, and a failing grouping stage leaves the
normalized write (here the identity normalization of the input bytes) on
disk with its error returned. -/
theorem c4_witness :
    format envFail fs0 (str ("f.go")) (str ("d")) false = (fs0, some ("boom")) ∧
    format envGciFail fs0 (str ("f.go")) (str ("d")) false =
      (fsWrite fs0 (str ("f.go")) (str ("d")), some ("gcierr")) ∧
    (format envGciFail fs0 (str ("f.go")) (str ("d")) false).1 (str ("f.go")) =
      some (str ("d"), 0o600) := by
  refine ⟨?_, ?_, ?_⟩
  · exact (c4_format_pipeline envFail fs0 (str ("f.go")) (str ("d"))).2.2.1 ("boom") rfl
  · exact ((c4_format_pipeline envGciFail fs0 (str ("f.go")) (str ("d"))).2.2.2.1
      (str ("d")) ("gcierr") rfl rfl).1
  · exact ((c4_format_pipeline envGciFail fs0 (str ("f.go")) (str ("d"))).2.2.2.1
      (str ("d")) ("gcierr") rfl rfl).2

end printer
